import Mathlib

/-!
Shallow embedding of the `sequence` module of the nom parser-combinator
library (src/src/sequence/mod.rs): the binary sequencers `pair`, `preceded`,
`terminated`, `separated_pair`, `delimited`, their uncurried `c` variants,
and the variadic `tuple` sequencer (a trait with one implementation per
arity, generated by the `tuple_trait` macro family).

A Rust `IResult<I, O, E> = Result<(I, O), Err<E>>` is embedded as
`Except (PErr E) (I × O)`; Rust's `?` operator on a `Result` with the same
error type propagates the error value unchanged, which is embedded as a
`match` returning the error in the error branch.
-/

namespace Nom

/-- How much data is needed for an incomplete parse (the `Needed` hint
carried by the incomplete-input signal). -/
inductive Needed : Type where
  | Unknown : Needed
  | Size : Nat → Needed
deriving DecidableEq, Repr

/-- The error side of a parse outcome: a recoverable error, an
unrecoverable failure, or an incomplete-input signal with a hint.
The sequence module never constructs these values; it only relays them. -/
inductive PErr (E : Type) : Type where
  | Incomplete : Needed → PErr E
  | Error : E → PErr E
  | Failure : E → PErr E
deriving DecidableEq, Repr

/-- `IResult I O E` embeds Rust's `IResult<I, O, E> = Result<(I, O), Err<E>>`:
success carries the remaining cursor and the output value. -/
def IResult (I O E : Type) : Type := Except (PErr E) (I × O)

instance instDecidableEqIResult {I O E : Type} [DecidableEq I] [DecidableEq O]
    [DecidableEq E] : DecidableEq (IResult I O E) := fun x y =>
  match x, y with
  | Except.ok a, Except.ok b =>
      if h : a = b then Decidable.isTrue (by rw [h])
      else Decidable.isFalse (by intro hc; cases hc; exact h rfl)
  | Except.ok _, Except.error _ => Decidable.isFalse (by intro hc; cases hc)
  | Except.error _, Except.ok _ => Decidable.isFalse (by intro hc; cases hc)
  | Except.error a, Except.error b =>
      if h : a = b then Decidable.isTrue (by rw [h])
      else Decidable.isFalse (by intro hc; cases hc; exact h rfl)

/-- A parser in the parser contract: a function from an input cursor to a
parse outcome (`Fn(I) -> IResult<I, O, E>`). -/
def ParserFn (I O E : Type) : Type := I → IResult I O E

/-- `pair(first, second)`: gets an object from the first parser, then gets
another object from the second parser. -/
def pair {I O1 O2 E : Type} (first : ParserFn I O1 E) (second : ParserFn I O2 E) :
    ParserFn I (O1 × O2) E :=
  fun input =>
    match first input with
    | Except.error e => Except.error e
    | Except.ok (input, o1) =>
        match second input with
        | Except.error e => Except.error e
        | Except.ok (i, o2) => Except.ok (i, (o1, o2))

/-- `pairc`: the uncurried variant used for type inference issues in macros. -/
def pairc {I O1 O2 E : Type} (input : I) (first : ParserFn I O1 E)
    (second : ParserFn I O2 E) : IResult I (O1 × O2) E :=
  pair first second input

/-- `preceded(first, second)`: matches an object from the first parser and
discards it, then gets an object from the second parser. -/
def preceded {I O1 O2 E : Type} (first : ParserFn I O1 E) (second : ParserFn I O2 E) :
    ParserFn I O2 E :=
  fun input =>
    match first input with
    | Except.error e => Except.error e
    | Except.ok (input, _) => second input

/-- `precededc`: the uncurried variant used for type inference issues in macros. -/
def precededc {I O1 O2 E : Type} (input : I) (first : ParserFn I O1 E)
    (second : ParserFn I O2 E) : IResult I O2 E :=
  preceded first second input

/-- `terminated(first, second)`: gets an object from the first parser, then
matches an object from the second parser and discards it. -/
def terminated {I O1 O2 E : Type} (first : ParserFn I O1 E) (second : ParserFn I O2 E) :
    ParserFn I O1 E :=
  fun input =>
    match first input with
    | Except.error e => Except.error e
    | Except.ok (input, o1) =>
        match second input with
        | Except.error e => Except.error e
        | Except.ok (i, _) => Except.ok (i, o1)

/-- `terminatedc`: the uncurried variant used for type inference issues in macros. -/
def terminatedc {I O1 O2 E : Type} (input : I) (first : ParserFn I O1 E)
    (second : ParserFn I O2 E) : IResult I O1 E :=
  terminated first second input

/-- `separated_pair(first, sep, second)`: gets an object from the first
parser, matches an object from the sep parser and discards it, then gets
another object from the second parser. -/
def separated_pair {I O1 O2 O3 E : Type} (first : ParserFn I O1 E)
    (sep : ParserFn I O2 E) (second : ParserFn I O3 E) :
    ParserFn I (O1 × O3) E :=
  fun input =>
    match first input with
    | Except.error e => Except.error e
    | Except.ok (input, o1) =>
        match sep input with
        | Except.error e => Except.error e
        | Except.ok (input, _) =>
            match second input with
            | Except.error e => Except.error e
            | Except.ok (i, o2) => Except.ok (i, (o1, o2))

/-- `separated_pairc`: the uncurried variant used for type inference issues in macros. -/
def separated_pairc {I O1 O2 O3 E : Type} (input : I) (first : ParserFn I O1 E)
    (sep : ParserFn I O2 E) (second : ParserFn I O3 E) : IResult I (O1 × O3) E :=
  separated_pair first sep second input

/-- `delimited(first, sep, second)`: matches an object from the first parser
and discards it, gets an object from the sep parser, then matches an object
from the second parser and discards it. -/
def delimited {I O1 O2 O3 E : Type} (first : ParserFn I O1 E)
    (sep : ParserFn I O2 E) (second : ParserFn I O3 E) :
    ParserFn I O2 E :=
  fun input =>
    match first input with
    | Except.error e => Except.error e
    | Except.ok (input, _) =>
        match sep input with
        | Except.error e => Except.error e
        | Except.ok (input, o2) =>
            match second input with
            | Except.error e => Except.error e
            | Except.ok (i, _) => Except.ok (i, o2)

/-- `delimitedc`: the uncurried variant used for type inference issues in macros. -/
def delimitedc {I O1 O2 O3 E : Type} (input : I) (first : ParserFn I O1 E)
    (sep : ParserFn I O2 E) (second : ParserFn I O3 E) : IResult I O2 E :=
  delimited first sep second input

/-- The `Tuple<I, O, E>` trait: a heterogeneous collection of parsers that
can be applied in sequence, producing the ordered product of their outputs. -/
class Tuple (L : Type) (I : Type) (O : outParam Type) (E : Type) : Type where
  parse : L → I → IResult I O E

/-- Body of the trait implementation for a pair of parsers, as expanded by
`tuple_trait_impl` and `tuple_trait_inner` at arity 2 (`.clone()` on the
input cursor is the identity in the embedding). -/
def tuple2parse {I O1 O2 E : Type} (s : ParserFn I O1 E × ParserFn I O2 E) :
    I → IResult I (O1 × O2) E :=
  fun input =>
    match s.1 input with
    | Except.error e => Except.error e
    | Except.ok (i, o) =>
        match s.2 i with
        | Except.error e => Except.error e
        | Except.ok (i, o2) => Except.ok (i, (o, o2))

instance instTuple2 {I O1 O2 E : Type} :
    Tuple (ParserFn I O1 E × ParserFn I O2 E) I (O1 × O2) E where
  parse := tuple2parse

/-- Body of the trait implementation for a triple of parsers, as expanded by
`tuple_trait_impl` and `tuple_trait_inner` at arity 3. -/
def tuple3parse {I O1 O2 O3 E : Type}
    (s : ParserFn I O1 E × ParserFn I O2 E × ParserFn I O3 E) :
    I → IResult I (O1 × O2 × O3) E :=
  fun input =>
    match s.1 input with
    | Except.error e => Except.error e
    | Except.ok (i, o) =>
        match s.2.1 i with
        | Except.error e => Except.error e
        | Except.ok (i, o2) =>
            match s.2.2 i with
            | Except.error e => Except.error e
            | Except.ok (i, o3) => Except.ok (i, (o, o2, o3))

instance instTuple3 {I O1 O2 O3 E : Type} :
    Tuple (ParserFn I O1 E × ParserFn I O2 E × ParserFn I O3 E) I (O1 × O2 × O3) E where
  parse := tuple3parse

/-- `tuple(l)`: applies a tuple of parsers one by one and returns their
results as a tuple. -/
def tuple {L I O E : Type} [Tuple L I O E] (l : L) : ParserFn I O E :=
  fun i => Tuple.parse l i

/-- The `tuple_trait` macro is invoked once, with 21 parser/type identifier
pairs (`FnA A` through `FnU U`); this list records those identifiers. -/
def tuple_trait_args : List String :=
  ["FnA", "FnB", "FnC", "FnD", "FnE", "FnF", "FnG", "FnH", "FnI", "FnJ",
   "FnK", "FnL", "FnM", "FnN", "FnO", "FnP", "FnQ", "FnR", "FnS", "FnT", "FnU"]

/-- The recursion of the `tuple_trait` macro's internal rules: with an
accumulated group of `acc` identifiers and `rest` identifiers remaining, the
rule for `rest ≥ 2` emits one trait implementation of arity `acc` and recurs
with one more identifier accumulated; the rule for `rest = 1` emits the
implementations of arity `acc` and `acc + 1`. `rest = 0` is unreachable from
the actual invocation (the entry rule requires at least three identifiers
and starts the recursion with `acc = 2`). -/
def tuple_trait_expand : Nat → Nat → List Nat
  | _, 0 => []
  | acc, 1 => [acc, acc + 1]
  | acc, n + 2 => acc :: tuple_trait_expand (acc + 1) (n + 1)

/-- The arities of the trait implementations generated by the one
`tuple_trait` invocation in the source: the entry rule groups the first two
identifiers and recurs on the remaining ones. -/
def tuple_trait_arities : List Nat :=
  match tuple_trait_args.length with
  | n + 2 => tuple_trait_expand 2 n
  | _ => []

/-- The error kind attached by the literal-match leaf parser on a mismatch. -/
inductive ErrorKind : Type where
  | Tag : ErrorKind
deriving DecidableEq, Repr

/-- Boolean test that the first list of characters begins the second. -/
def beginsWith : List Char → List Char → Bool
  | [], _ => true
  | _ :: _, [] => false
  | c :: t, d :: i => c == d && beginsWith t i

/-- Modelled from the spec: the literal-match leaf parser (`tag` of
`nom::bytes::complete`, called `match` in the spec), which is out of scope
of the sequence module (`src/src/sequence/mod.rs` only consumes the parser
contract). Its behavior is fixed by the spec's concrete scenarios and by the
doc examples in the source: on an input starting with the literal it
succeeds with the literal as output and the rest of the input as the
remaining cursor; otherwise it fails with a tag-mismatch error carrying the
unchanged input. -/
def tagL (t : List Char) : ParserFn (List Char) (List Char) (List Char × ErrorKind) :=
  fun i =>
    if beginsWith t i then Except.ok (i.drop t.length, t)
    else Except.error (PErr.Error (i, ErrorKind.Tag))

/-- A parser only ever moves forward through its input: on success the
remaining cursor is a suffix of the cursor it was given. -/
def SuffixMono {A O E : Type} (p : ParserFn (List A) O E) : Prop :=
  ∀ i i' o, p i = Except.ok (i', o) → i' <:+ i

/-- A leaf parser that always reports an incomplete-input signal asking for
two more bytes, used to observe that the sequencers forward such a signal
untouched. -/
def incompleteProbe : ParserFn (List Char) (List Char) (List Char × ErrorKind) :=
  fun _ => Except.error (PErr.Incomplete (Needed.Size 2))

section Helpers

variable {I O1 O2 O3 E : Type}
variable {f : ParserFn I O1 E} {g : ParserFn I O2 E} {h : ParserFn I O3 E}
variable {i i1 i2 i3 : I} {o1 : O1} {o2 : O2} {o3 : O3} {e : PErr E}

theorem pair_fail1 (hf : f i = Except.error e) : pair f g i = Except.error e := by
  simp only [pair, hf]

theorem pair_fail2 (hf : f i = Except.ok (i1, o1)) (hg : g i1 = Except.error e) :
    pair f g i = Except.error e := by
  simp only [pair, hf, hg]

theorem pair_ok (hf : f i = Except.ok (i1, o1)) (hg : g i1 = Except.ok (i2, o2)) :
    pair f g i = Except.ok (i2, (o1, o2)) := by
  simp only [pair, hf, hg]

theorem pair_err_inv (hp : pair f g i = Except.error e) :
    f i = Except.error e ∨
      ∃ j p1, f i = Except.ok (j, p1) ∧ g j = Except.error e := by
  simp only [pair] at hp
  split at hp
  next e1 heq => exact Or.inl ((Except.error.inj hp) ▸ heq)
  next j p1 heq =>
    split at hp
    next e2 heq2 => exact Or.inr ⟨j, p1, heq, (Except.error.inj hp) ▸ heq2⟩
    next k p2 heq2 => cases hp

theorem pair_ok_inv {o : O1 × O2} (hp : pair f g i = Except.ok (i2, o)) :
    ∃ j p1 p2, f i = Except.ok (j, p1) ∧ g j = Except.ok (i2, p2) ∧ o = (p1, p2) := by
  simp only [pair] at hp
  split at hp
  next e1 heq => cases hp
  next j p1 heq =>
    split at hp
    next e2 heq2 => cases hp
    next k p2 heq2 =>
      cases hp
      exact ⟨j, p1, p2, heq, heq2, rfl⟩

theorem preceded_fail1 (hf : f i = Except.error e) : preceded f g i = Except.error e := by
  simp only [preceded, hf]

theorem preceded_fail2 (hf : f i = Except.ok (i1, o1)) (hg : g i1 = Except.error e) :
    preceded f g i = Except.error e := by
  simp only [preceded, hf, hg]

theorem preceded_ok (hf : f i = Except.ok (i1, o1)) (hg : g i1 = Except.ok (i2, o2)) :
    preceded f g i = Except.ok (i2, o2) := by
  simp only [preceded, hf, hg]

theorem preceded_err_inv (hp : preceded f g i = Except.error e) :
    f i = Except.error e ∨
      ∃ j p1, f i = Except.ok (j, p1) ∧ g j = Except.error e := by
  simp only [preceded] at hp
  split at hp
  next e1 heq => exact Or.inl ((Except.error.inj hp) ▸ heq)
  next j p1 heq => exact Or.inr ⟨j, p1, heq, hp⟩

theorem preceded_ok_inv {o : O2} (hp : preceded f g i = Except.ok (i2, o)) :
    ∃ j p1, f i = Except.ok (j, p1) ∧ g j = Except.ok (i2, o) := by
  simp only [preceded] at hp
  split at hp
  next e1 heq => cases hp
  next j p1 heq => exact ⟨j, p1, heq, hp⟩

theorem terminated_fail1 (hf : f i = Except.error e) : terminated f g i = Except.error e := by
  simp only [terminated, hf]

theorem terminated_fail2 (hf : f i = Except.ok (i1, o1)) (hg : g i1 = Except.error e) :
    terminated f g i = Except.error e := by
  simp only [terminated, hf, hg]

theorem terminated_ok (hf : f i = Except.ok (i1, o1)) (hg : g i1 = Except.ok (i2, o2)) :
    terminated f g i = Except.ok (i2, o1) := by
  simp only [terminated, hf, hg]

theorem terminated_err_inv (hp : terminated f g i = Except.error e) :
    f i = Except.error e ∨
      ∃ j p1, f i = Except.ok (j, p1) ∧ g j = Except.error e := by
  simp only [terminated] at hp
  split at hp
  next e1 heq => exact Or.inl ((Except.error.inj hp) ▸ heq)
  next j p1 heq =>
    split at hp
    next e2 heq2 => exact Or.inr ⟨j, p1, heq, (Except.error.inj hp) ▸ heq2⟩
    next k p2 heq2 => cases hp

theorem terminated_ok_inv {o : O1} (hp : terminated f g i = Except.ok (i2, o)) :
    ∃ j p2, f i = Except.ok (j, o) ∧ g j = Except.ok (i2, p2) := by
  simp only [terminated] at hp
  split at hp
  next e1 heq => cases hp
  next j p1 heq =>
    split at hp
    next e2 heq2 => cases hp
    next k p2 heq2 =>
      cases hp
      exact ⟨j, p2, heq, heq2⟩

theorem separated_pair_fail1 (hf : f i = Except.error e) :
    separated_pair f g h i = Except.error e := by
  simp only [separated_pair, hf]

theorem separated_pair_fail2 (hf : f i = Except.ok (i1, o1)) (hg : g i1 = Except.error e) :
    separated_pair f g h i = Except.error e := by
  simp only [separated_pair, hf, hg]

theorem separated_pair_fail3 (hf : f i = Except.ok (i1, o1)) (hg : g i1 = Except.ok (i2, o2))
    (hh : h i2 = Except.error e) : separated_pair f g h i = Except.error e := by
  simp only [separated_pair, hf, hg, hh]

theorem separated_pair_ok (hf : f i = Except.ok (i1, o1)) (hg : g i1 = Except.ok (i2, o2))
    (hh : h i2 = Except.ok (i3, o3)) :
    separated_pair f g h i = Except.ok (i3, (o1, o3)) := by
  simp only [separated_pair, hf, hg, hh]

theorem separated_pair_err_inv (hp : separated_pair f g h i = Except.error e) :
    f i = Except.error e ∨
      (∃ j p1, f i = Except.ok (j, p1) ∧ g j = Except.error e) ∨
      (∃ j p1 k p2, f i = Except.ok (j, p1) ∧ g j = Except.ok (k, p2) ∧
        h k = Except.error e) := by
  simp only [separated_pair] at hp
  split at hp
  next e1 heq => exact Or.inl ((Except.error.inj hp) ▸ heq)
  next j p1 heq =>
    split at hp
    next e2 heq2 => exact Or.inr (Or.inl ⟨j, p1, heq, (Except.error.inj hp) ▸ heq2⟩)
    next k p2 heq2 =>
      split at hp
      next e3 heq3 =>
        exact Or.inr (Or.inr ⟨j, p1, k, p2, heq, heq2, (Except.error.inj hp) ▸ heq3⟩)
      next m p3 heq3 => cases hp

theorem separated_pair_ok_inv {o : O1 × O3}
    (hp : separated_pair f g h i = Except.ok (i3, o)) :
    ∃ j p1 k p2 p3, f i = Except.ok (j, p1) ∧ g j = Except.ok (k, p2) ∧
      h k = Except.ok (i3, p3) ∧ o = (p1, p3) := by
  simp only [separated_pair] at hp
  split at hp
  next e1 heq => cases hp
  next j p1 heq =>
    split at hp
    next e2 heq2 => cases hp
    next k p2 heq2 =>
      split at hp
      next e3 heq3 => cases hp
      next m p3 heq3 =>
        cases hp
        exact ⟨j, p1, k, p2, p3, heq, heq2, heq3, rfl⟩

theorem delimited_fail1 (hf : f i = Except.error e) :
    delimited f g h i = Except.error e := by
  simp only [delimited, hf]

theorem delimited_fail2 (hf : f i = Except.ok (i1, o1)) (hg : g i1 = Except.error e) :
    delimited f g h i = Except.error e := by
  simp only [delimited, hf, hg]

theorem delimited_fail3 (hf : f i = Except.ok (i1, o1)) (hg : g i1 = Except.ok (i2, o2))
    (hh : h i2 = Except.error e) : delimited f g h i = Except.error e := by
  simp only [delimited, hf, hg, hh]

theorem delimited_ok (hf : f i = Except.ok (i1, o1)) (hg : g i1 = Except.ok (i2, o2))
    (hh : h i2 = Except.ok (i3, o3)) :
    delimited f g h i = Except.ok (i3, o2) := by
  simp only [delimited, hf, hg, hh]

theorem delimited_err_inv (hp : delimited f g h i = Except.error e) :
    f i = Except.error e ∨
      (∃ j p1, f i = Except.ok (j, p1) ∧ g j = Except.error e) ∨
      (∃ j p1 k p2, f i = Except.ok (j, p1) ∧ g j = Except.ok (k, p2) ∧
        h k = Except.error e) := by
  simp only [delimited] at hp
  split at hp
  next e1 heq => exact Or.inl ((Except.error.inj hp) ▸ heq)
  next j p1 heq =>
    split at hp
    next e2 heq2 => exact Or.inr (Or.inl ⟨j, p1, heq, (Except.error.inj hp) ▸ heq2⟩)
    next k p2 heq2 =>
      split at hp
      next e3 heq3 =>
        exact Or.inr (Or.inr ⟨j, p1, k, p2, heq, heq2, (Except.error.inj hp) ▸ heq3⟩)
      next m p3 heq3 => cases hp

theorem delimited_ok_inv {o : O2} (hp : delimited f g h i = Except.ok (i3, o)) :
    ∃ j p1 k p3, f i = Except.ok (j, p1) ∧ g j = Except.ok (k, o) ∧
      h k = Except.ok (i3, p3) := by
  simp only [delimited] at hp
  split at hp
  next e1 heq => cases hp
  next j p1 heq =>
    split at hp
    next e2 heq2 => cases hp
    next k p2 heq2 =>
      split at hp
      next e3 heq3 => cases hp
      next m p3 heq3 =>
        cases hp
        exact ⟨j, p1, k, p3, heq, heq2, heq3⟩

theorem tuple2_eq_pair (f : ParserFn I O1 E) (g : ParserFn I O2 E) (i : I) :
    tuple (f, g) i = pair f g i := by
  simp only [tuple, Tuple.parse, instTuple2, tuple2parse, pair]

theorem tuple3_eq_pair (f : ParserFn I O1 E) (g : ParserFn I O2 E) (h : ParserFn I O3 E)
    (i : I) : tuple (f, g, h) i = pair f (pair g h) i := by
  simp only [tuple, Tuple.parse, instTuple3, tuple3parse]
  cases hf : f i with
  | error e => simp only [pair, hf]
  | ok p =>
    obtain ⟨j, po1⟩ := p
    cases hg : g j with
    | error e => simp only [pair, hf, hg]
    | ok q =>
      obtain ⟨k, po2⟩ := q
      cases hh : h k with
      | error e => simp only [pair, hf, hg, hh]
      | ok r =>
        obtain ⟨m, po3⟩ := r
        simp only [pair, hf, hg, hh]

end Helpers

section SuffixHelpers

variable {A : Type} {i j k i' : List A}

theorem suffix_chain2 (hj : j <:+ i) (hi' : i' <:+ j) :
    i' <:+ i ∧
      i.length - i'.length = (i.length - j.length) + (j.length - i'.length) := by
  refine ⟨hi'.trans hj, ?_⟩
  have h1 := hj.length_le
  have h2 := hi'.length_le
  omega

theorem suffix_chain3 (hj : j <:+ i) (hk : k <:+ j) (hi' : i' <:+ k) :
    i' <:+ i ∧
      i.length - i'.length =
        (i.length - j.length) + (j.length - k.length) + (k.length - i'.length) := by
  refine ⟨(hi'.trans hk).trans hj, ?_⟩
  have h1 := hj.length_le
  have h2 := hk.length_le
  have h3 := hi'.length_le
  omega

theorem tagL_suffixMono (t : List Char) : SuffixMono (tagL t) := by
  intro i i' o hok
  simp only [tagL] at hok
  split at hok
  next hb =>
    cases hok
    exact List.drop_suffix t.length i
  next hb => cases hok

end SuffixHelpers

/-- Claim C1: for every sequencing combinator (pair, preceded, terminated,
separated_pair, delimited, tuple) and all sub-parsers and inputs, if the
k-th sub-parser (1-indexed, in declared order) returns a failure on the
cursor it was given, the composed parser's result equals that sub-parser's
failure value verbatim, and no sub-parser at a position greater than k is
invoked. Non-invocation of the later sub-parsers is expressed by
quantifying them universally inside each conjunct: the composition's result
is the same failure value for every choice of the sub-parsers past
position k, so the result cannot depend on (and in the embedding cannot
observe) any of them. -/
theorem C1_short_circuit {I O1 O2 O3 E : Type}
    (f : ParserFn I O1 E) (g : ParserFn I O2 E) (h : ParserFn I O3 E)
    (i : I) (e : PErr E) :
    (f i = Except.error e →
      (∀ g' : ParserFn I O2 E, pair f g' i = Except.error e) ∧
      (∀ g' : ParserFn I O2 E, preceded f g' i = Except.error e) ∧
      (∀ g' : ParserFn I O2 E, terminated f g' i = Except.error e) ∧
      (∀ (g' : ParserFn I O2 E) (h' : ParserFn I O3 E),
        separated_pair f g' h' i = Except.error e) ∧
      (∀ (g' : ParserFn I O2 E) (h' : ParserFn I O3 E),
        delimited f g' h' i = Except.error e) ∧
      (∀ g' : ParserFn I O2 E, tuple (f, g') i = Except.error e) ∧
      (∀ (g' : ParserFn I O2 E) (h' : ParserFn I O3 E),
        tuple (f, g', h') i = Except.error e)) ∧
    (∀ i1 o1, f i = Except.ok (i1, o1) → g i1 = Except.error e →
      pair f g i = Except.error e ∧
      preceded f g i = Except.error e ∧
      terminated f g i = Except.error e ∧
      (∀ h' : ParserFn I O3 E, separated_pair f g h' i = Except.error e) ∧
      (∀ h' : ParserFn I O3 E, delimited f g h' i = Except.error e) ∧
      tuple (f, g) i = Except.error e ∧
      (∀ h' : ParserFn I O3 E, tuple (f, g, h') i = Except.error e)) ∧
    (∀ i1 o1 i2 o2, f i = Except.ok (i1, o1) → g i1 = Except.ok (i2, o2) →
      h i2 = Except.error e →
      separated_pair f g h i = Except.error e ∧
      delimited f g h i = Except.error e ∧
      tuple (f, g, h) i = Except.error e) := by
  refine ⟨fun hf => ?_, fun i1 o1 hf hg => ?_, fun i1 o1 i2 o2 hf hg hh => ?_⟩
  · exact ⟨fun g' => pair_fail1 hf, fun g' => preceded_fail1 hf,
      fun g' => terminated_fail1 hf, fun g' h' => separated_pair_fail1 hf,
      fun g' h' => delimited_fail1 hf,
      fun g' => (tuple2_eq_pair f g' i).trans (pair_fail1 hf),
      fun g' h' => (tuple3_eq_pair f g' h' i).trans (pair_fail1 hf)⟩
  · exact ⟨pair_fail2 hf hg, preceded_fail2 hf hg, terminated_fail2 hf hg,
      fun h' => separated_pair_fail2 hf hg, fun h' => delimited_fail2 hf hg,
      (tuple2_eq_pair f g i).trans (pair_fail2 hf hg),
      fun h' => (tuple3_eq_pair f g h' i).trans (pair_fail2 hf (pair_fail1 hg))⟩
  · exact ⟨separated_pair_fail3 hf hg hh, delimited_fail3 hf hg hh,
      (tuple3_eq_pair f g h i).trans (pair_fail2 hf (pair_fail2 hg hh))⟩

/-- Witness for C1: a failure of the first sub-parser on `"123"` is the
composition's result verbatim for a concrete second parser, and a failure
of the third sub-parser of a triple on `"abzd"` is the triple's result
verbatim (the error carries the attempted input `"zd"`). -/
theorem C1_short_circuit_witness :
    pair (tagL "abc".data) (tagL "efg".data) "123".data =
      Except.error (PErr.Error ("123".data, ErrorKind.Tag)) ∧
    tuple (tagL "a".data, tagL "b".data, tagL "c".data) "abzd".data =
      Except.error (PErr.Error ("zd".data, ErrorKind.Tag)) := by
  constructor
  · exact ((C1_short_circuit (tagL "abc".data) (tagL "efg".data) (tagL "efg".data)
      "123".data (PErr.Error ("123".data, ErrorKind.Tag))).1 (by decide)).1
      (tagL "efg".data)
  · exact ((C1_short_circuit (tagL "a".data) (tagL "b".data) (tagL "c".data)
      "abzd".data (PErr.Error ("zd".data, ErrorKind.Tag))).2.2 "bzd".data "a".data
      "zd".data "b".data (by decide) (by decide) (by decide)).2.2

/-- Claim C2: for every pair of parsers and every input cursor, `tuple`
applied to the 2-tuple `(A, B)` produces exactly the same outcome (same
output pair and remaining cursor on success, same failure otherwise) as
`pair(A, B)` applied to that cursor. -/
theorem C2_tuple_pair_equiv {I O1 O2 E : Type} (f : ParserFn I O1 E)
    (g : ParserFn I O2 E) (i : I) : tuple (f, g) i = pair f g i := by
  simp only [tuple, Tuple.parse, instTuple2, tuple2parse, pair]

/-- Claim C3: for all parsers A, B, C and every input cursor, `tuple`
applied to `(A, B, C)` is observationally equivalent to
`pair(A, pair(B, C))`: same failures, same remaining cursor, and the flat
triple `(a, b, c)` equals the reassociation of the nested `(a, (b, c))`.
In the embedding the Rust flat 3-tuple `(A, B, C)` is the right-nested
product `A × B × C = A × (B × C)`, so the reassociation map is the identity
and the equivalence is a plain equality of outcomes. -/
theorem C3_tuple_right_nested {I O1 O2 O3 E : Type} (f : ParserFn I O1 E)
    (g : ParserFn I O2 E) (h : ParserFn I O3 E) (i : I) :
    tuple (f, g, h) i = pair f (pair g h) i := by
  simp only [tuple, Tuple.parse, instTuple3, tuple3parse]
  cases hf : f i with
  | error e => simp only [pair, hf]
  | ok p =>
    obtain ⟨j, po1⟩ := p
    cases hg : g j with
    | error e => simp only [pair, hf, hg]
    | ok q =>
      obtain ⟨k, po2⟩ := q
      cases hh : h k with
      | error e => simp only [pair, hf, hg, hh]
      | ok r =>
        obtain ⟨m, po3⟩ := r
        simp only [pair, hf, hg, hh]

/-- Claim C4: on full success, `separated_pair(A, S, B)` returns the pair
`(outputA, outputB)` with the separator's output discarded and the cursor
being the one after B, and `delimited(A, M, B)` returns the middle parser's
output with the outer parsers' outputs discarded and the cursor being the
one after the third parser. -/
theorem C4_success_projections {I O1 O2 O3 E : Type} (f : ParserFn I O1 E)
    (s : ParserFn I O2 E) (g : ParserFn I O3 E) (i i1 i2 i3 : I)
    (o1 : O1) (o2 : O2) (o3 : O3)
    (hf : f i = Except.ok (i1, o1)) (hs : s i1 = Except.ok (i2, o2))
    (hg : g i2 = Except.ok (i3, o3)) :
    separated_pair f s g i = Except.ok (i3, (o1, o3)) ∧
    delimited f s g i = Except.ok (i3, o2) :=
  ⟨separated_pair_ok hf hs hg, delimited_ok hf hs hg⟩

/-- Witness for C4: `separated_pair(tag("a"), tag(","), tag("b"))` on
`"a,b!"` yields `("a", "b")` with cursor `"!"`, and `delimited` with the
same parsers yields the middle output `","`. -/
theorem C4_success_projections_witness :
    separated_pair (tagL "a".data) (tagL ",".data) (tagL "b".data) "a,b!".data =
      Except.ok ("!".data, ("a".data, "b".data)) ∧
    delimited (tagL "a".data) (tagL ",".data) (tagL "b".data) "a,b!".data =
      Except.ok ("!".data, ",".data) :=
  C4_success_projections (tagL "a".data) (tagL ",".data) (tagL "b".data)
    "a,b!".data ",b!".data "b!".data "!".data "a".data ",".data "b".data
    (by decide) (by decide) (by decide)

/-- Claim C5: for every sequencing combinator, any Failure or Incomplete
outcome produced by a sub-parser is forwarded to the caller unmodified, and
the sequencing layer never constructs, wraps, annotates, translates, or
swallows an error or incomplete-input value. The error value `e` ranges
over all three error-side constructors (Error, Failure, Incomplete); each
combinator's result is that exact error if and only if the first failing
sub-parser produced that exact error, so every error at the composition
boundary is the verbatim error of some sub-parser. -/
theorem C5_error_transparency {I O1 O2 O3 E : Type}
    (f : ParserFn I O1 E) (g : ParserFn I O2 E) (h : ParserFn I O3 E)
    (i : I) (e : PErr E) :
    (pair f g i = Except.error e ↔ f i = Except.error e ∨
      ∃ j p1, f i = Except.ok (j, p1) ∧ g j = Except.error e) ∧
    (preceded f g i = Except.error e ↔ f i = Except.error e ∨
      ∃ j p1, f i = Except.ok (j, p1) ∧ g j = Except.error e) ∧
    (terminated f g i = Except.error e ↔ f i = Except.error e ∨
      ∃ j p1, f i = Except.ok (j, p1) ∧ g j = Except.error e) ∧
    (separated_pair f g h i = Except.error e ↔ f i = Except.error e ∨
      (∃ j p1, f i = Except.ok (j, p1) ∧ g j = Except.error e) ∨
      ∃ j p1 k p2, f i = Except.ok (j, p1) ∧ g j = Except.ok (k, p2) ∧
        h k = Except.error e) ∧
    (delimited f g h i = Except.error e ↔ f i = Except.error e ∨
      (∃ j p1, f i = Except.ok (j, p1) ∧ g j = Except.error e) ∨
      ∃ j p1 k p2, f i = Except.ok (j, p1) ∧ g j = Except.ok (k, p2) ∧
        h k = Except.error e) ∧
    (tuple (f, g) i = Except.error e ↔ f i = Except.error e ∨
      ∃ j p1, f i = Except.ok (j, p1) ∧ g j = Except.error e) ∧
    (tuple (f, g, h) i = Except.error e ↔ f i = Except.error e ∨
      (∃ j p1, f i = Except.ok (j, p1) ∧ g j = Except.error e) ∨
      ∃ j p1 k p2, f i = Except.ok (j, p1) ∧ g j = Except.ok (k, p2) ∧
        h k = Except.error e) := by
  have pair_iff : ∀ (g' : ParserFn I O2 E),
      (pair f g' i = Except.error e ↔ f i = Except.error e ∨
        ∃ j p1, f i = Except.ok (j, p1) ∧ g' j = Except.error e) := by
    intro g'
    constructor
    · exact pair_err_inv
    · rintro (hf | ⟨j, p1, hf, hg⟩)
      · exact pair_fail1 hf
      · exact pair_fail2 hf hg
  have triple_decomp : ∀ hp : pair f (pair g h) i = Except.error e,
      f i = Except.error e ∨
        (∃ j p1, f i = Except.ok (j, p1) ∧ g j = Except.error e) ∨
        ∃ j p1 k p2, f i = Except.ok (j, p1) ∧ g j = Except.ok (k, p2) ∧
          h k = Except.error e := by
    intro hp
    rcases pair_err_inv hp with hf | ⟨j, p1, hf, hgh⟩
    · exact Or.inl hf
    · rcases pair_err_inv hgh with hg | ⟨k, p2, hg, hh⟩
      · exact Or.inr (Or.inl ⟨j, p1, hf, hg⟩)
      · exact Or.inr (Or.inr ⟨j, p1, k, p2, hf, hg, hh⟩)
  have triple_build :
      (f i = Except.error e ∨
        (∃ j p1, f i = Except.ok (j, p1) ∧ g j = Except.error e) ∨
        ∃ j p1 k p2, f i = Except.ok (j, p1) ∧ g j = Except.ok (k, p2) ∧
          h k = Except.error e) →
        pair f (pair g h) i = Except.error e := by
    rintro (hf | ⟨j, p1, hf, hg⟩ | ⟨j, p1, k, p2, hf, hg, hh⟩)
    · exact pair_fail1 hf
    · exact pair_fail2 hf (pair_fail1 hg)
    · exact pair_fail2 hf (pair_fail2 hg hh)
  refine ⟨pair_iff g, ?_, ?_, ?_, ?_, ?_, ?_⟩
  · constructor
    · exact preceded_err_inv
    · rintro (hf | ⟨j, p1, hf, hg⟩)
      · exact preceded_fail1 hf
      · exact preceded_fail2 hf hg
  · constructor
    · exact terminated_err_inv
    · rintro (hf | ⟨j, p1, hf, hg⟩)
      · exact terminated_fail1 hf
      · exact terminated_fail2 hf hg
  · constructor
    · exact separated_pair_err_inv
    · rintro (hf | ⟨j, p1, hf, hg⟩ | ⟨j, p1, k, p2, hf, hg, hh⟩)
      · exact separated_pair_fail1 hf
      · exact separated_pair_fail2 hf hg
      · exact separated_pair_fail3 hf hg hh
  · constructor
    · exact delimited_err_inv
    · rintro (hf | ⟨j, p1, hf, hg⟩ | ⟨j, p1, k, p2, hf, hg, hh⟩)
      · exact delimited_fail1 hf
      · exact delimited_fail2 hf hg
      · exact delimited_fail3 hf hg hh
  · rw [tuple2_eq_pair]
    exact pair_iff g
  · rw [tuple3_eq_pair]
    exact ⟨triple_decomp, triple_build⟩

/-- Witness for C5: an incomplete-input signal (`Incomplete (Size 2)`) and
an ordinary tag-mismatch error raised by a sub-parser each surface at the
composition boundary verbatim. -/
theorem C5_error_transparency_witness :
    pair incompleteProbe (tagL "a".data) "xy".data =
      Except.error (PErr.Incomplete (Needed.Size 2)) ∧
    delimited (tagL "(".data) (tagL "x".data) (tagL ")".data) "(y)".data =
      Except.error (PErr.Error ("y)".data, ErrorKind.Tag)) := by
  constructor
  · exact (C5_error_transparency incompleteProbe (tagL "a".data) (tagL "a".data)
      "xy".data (PErr.Incomplete (Needed.Size 2))).1.mpr (Or.inl rfl)
  · exact (C5_error_transparency (tagL "(".data) (tagL "x".data) (tagL ")".data)
      "(y)".data (PErr.Error ("y)".data, ErrorKind.Tag))).2.2.2.2.1.mpr
      (Or.inr (Or.inl ⟨"y)".data, "(".data, by decide, by decide⟩))

/-- Claim C6: for all parsers A, B and every input on which `pair(A, B)`
succeeds, the output of `preceded(A, B)` equals the second component of
`pair(A, B)`'s output and the output of `terminated(A, B)` equals the first
component, in both cases with a remaining cursor identical to
`pair(A, B)`'s remaining cursor (so on such inputs the projected
combinators also succeed, as the claim presupposes). -/
theorem C6_projection_laws {I O1 O2 E : Type} (f : ParserFn I O1 E)
    (g : ParserFn I O2 E) (i i2 : I) (o1 : O1) (o2 : O2)
    (hp : pair f g i = Except.ok (i2, (o1, o2))) :
    preceded f g i = Except.ok (i2, o2) ∧ terminated f g i = Except.ok (i2, o1) := by
  obtain ⟨j, p1, p2, hf, hg, ho⟩ := pair_ok_inv hp
  cases ho
  exact ⟨preceded_ok hf hg, terminated_ok hf hg⟩

/-- Witness for C6: on `"abcefghij"`, `pair` yields `("abc", "efg")` with
cursor `"hij"`; `preceded` projects out `"efg"` and `terminated` projects
out `"abc"`, both with cursor `"hij"`. -/
theorem C6_projection_laws_witness :
    preceded (tagL "abc".data) (tagL "efg".data) "abcefghij".data =
      Except.ok ("hij".data, "efg".data) ∧
    terminated (tagL "abc".data) (tagL "efg".data) "abcefghij".data =
      Except.ok ("hij".data, "abc".data) :=
  C6_projection_laws (tagL "abc".data) (tagL "efg".data) "abcefghij".data
    "hij".data "abc".data "efg".data (by decide)

/-- Claim C7: under the precondition that every sub-parser returns, on
success, a cursor that is a suffix of (or equal to) the cursor it was
given, every successful composed parse (via any sequencer) returns a final
cursor that is a suffix of the initial cursor, and the total consumed
length equals the sum of the lengths consumed by each sub-parser that ran
(each sub-parser's consumed length being the length difference between the
cursor it was given and the cursor it returned, exhibited through the
intermediate cursors). -/
theorem C7_cursor_monotone {A O1 O2 O3 E : Type}
    (f : ParserFn (List A) O1 E) (g : ParserFn (List A) O2 E)
    (h : ParserFn (List A) O3 E)
    (hf : SuffixMono f) (hg : SuffixMono g) (hh : SuffixMono h) :
    (∀ i i' o, pair f g i = Except.ok (i', o) → i' <:+ i ∧ ∃ j,
      (∃ p1, f i = Except.ok (j, p1)) ∧ (∃ p2, g j = Except.ok (i', p2)) ∧
      i.length - i'.length = (i.length - j.length) + (j.length - i'.length)) ∧
    (∀ i i' o, preceded f g i = Except.ok (i', o) → i' <:+ i ∧ ∃ j,
      (∃ p1, f i = Except.ok (j, p1)) ∧ (∃ p2, g j = Except.ok (i', p2)) ∧
      i.length - i'.length = (i.length - j.length) + (j.length - i'.length)) ∧
    (∀ i i' o, terminated f g i = Except.ok (i', o) → i' <:+ i ∧ ∃ j,
      (∃ p1, f i = Except.ok (j, p1)) ∧ (∃ p2, g j = Except.ok (i', p2)) ∧
      i.length - i'.length = (i.length - j.length) + (j.length - i'.length)) ∧
    (∀ i i' o, separated_pair f g h i = Except.ok (i', o) → i' <:+ i ∧ ∃ j k,
      (∃ p1, f i = Except.ok (j, p1)) ∧ (∃ p2, g j = Except.ok (k, p2)) ∧
      (∃ p3, h k = Except.ok (i', p3)) ∧
      i.length - i'.length =
        (i.length - j.length) + (j.length - k.length) + (k.length - i'.length)) ∧
    (∀ i i' o, delimited f g h i = Except.ok (i', o) → i' <:+ i ∧ ∃ j k,
      (∃ p1, f i = Except.ok (j, p1)) ∧ (∃ p2, g j = Except.ok (k, p2)) ∧
      (∃ p3, h k = Except.ok (i', p3)) ∧
      i.length - i'.length =
        (i.length - j.length) + (j.length - k.length) + (k.length - i'.length)) ∧
    (∀ (i i' : List A) (o : O1 × O2),
      (tuple (f, g) : ParserFn (List A) (O1 × O2) E) i = Except.ok (i', o) →
      i' <:+ i ∧ ∃ j,
      (∃ p1, f i = Except.ok (j, p1)) ∧ (∃ p2, g j = Except.ok (i', p2)) ∧
      i.length - i'.length = (i.length - j.length) + (j.length - i'.length)) ∧
    (∀ (i i' : List A) (o : O1 × O2 × O3),
      (tuple (f, g, h) : ParserFn (List A) (O1 × O2 × O3) E) i = Except.ok (i', o) →
      i' <:+ i ∧ ∃ j k,
      (∃ p1, f i = Except.ok (j, p1)) ∧ (∃ p2, g j = Except.ok (k, p2)) ∧
      (∃ p3, h k = Except.ok (i', p3)) ∧
      i.length - i'.length =
        (i.length - j.length) + (j.length - k.length) + (k.length - i'.length)) := by
  have hpair : ∀ i i' (o : O1 × O2), pair f g i = Except.ok (i', o) →
      i' <:+ i ∧ ∃ j,
        (∃ p1, f i = Except.ok (j, p1)) ∧ (∃ p2, g j = Except.ok (i', p2)) ∧
        i.length - i'.length = (i.length - j.length) + (j.length - i'.length) := by
    intro i i' o hp
    obtain ⟨j, p1, p2, hfe, hge, _⟩ := pair_ok_inv hp
    obtain ⟨hs, hlen⟩ := suffix_chain2 (hf i j p1 hfe) (hg j i' p2 hge)
    exact ⟨hs, j, ⟨p1, hfe⟩, ⟨p2, hge⟩, hlen⟩
  have htriple : ∀ i i' (o : O1 × O2 × O3),
      (tuple (f, g, h) : ParserFn (List A) (O1 × O2 × O3) E) i = Except.ok (i', o) →
      i' <:+ i ∧ ∃ j k,
        (∃ p1, f i = Except.ok (j, p1)) ∧ (∃ p2, g j = Except.ok (k, p2)) ∧
        (∃ p3, h k = Except.ok (i', p3)) ∧
        i.length - i'.length =
          (i.length - j.length) + (j.length - k.length) + (k.length - i'.length) := by
    intro i i' o hp
    rw [tuple3_eq_pair] at hp
    obtain ⟨j, p1, q, hfe, hghe, _⟩ := pair_ok_inv hp
    obtain ⟨k, p2, p3, hge, hhe, _⟩ := pair_ok_inv hghe
    obtain ⟨hs, hlen⟩ :=
      suffix_chain3 (hf i j p1 hfe) (hg j k p2 hge) (hh k i' p3 hhe)
    exact ⟨hs, j, k, ⟨p1, hfe⟩, ⟨p2, hge⟩, ⟨p3, hhe⟩, hlen⟩
  refine ⟨hpair, ?_, ?_, ?_, ?_, ?_, htriple⟩
  · intro i i' o hp
    obtain ⟨j, p1, hfe, hge⟩ := preceded_ok_inv hp
    obtain ⟨hs, hlen⟩ := suffix_chain2 (hf i j p1 hfe) (hg j i' o hge)
    exact ⟨hs, j, ⟨p1, hfe⟩, ⟨o, hge⟩, hlen⟩
  · intro i i' o hp
    obtain ⟨j, p2, hfe, hge⟩ := terminated_ok_inv hp
    obtain ⟨hs, hlen⟩ := suffix_chain2 (hf i j o hfe) (hg j i' p2 hge)
    exact ⟨hs, j, ⟨o, hfe⟩, ⟨p2, hge⟩, hlen⟩
  · intro i i' o hp
    obtain ⟨j, p1, k, p2, p3, hfe, hge, hhe, _⟩ := separated_pair_ok_inv hp
    obtain ⟨hs, hlen⟩ :=
      suffix_chain3 (hf i j p1 hfe) (hg j k p2 hge) (hh k i' p3 hhe)
    exact ⟨hs, j, k, ⟨p1, hfe⟩, ⟨p2, hge⟩, ⟨p3, hhe⟩, hlen⟩
  · intro i i' o hp
    obtain ⟨j, p1, k, p3, hfe, hge, hhe⟩ := delimited_ok_inv hp
    obtain ⟨hs, hlen⟩ :=
      suffix_chain3 (hf i j p1 hfe) (hg j k o hge) (hh k i' p3 hhe)
    exact ⟨hs, j, k, ⟨p1, hfe⟩, ⟨o, hge⟩, ⟨p3, hhe⟩, hlen⟩
  · intro i i' o hp
    rw [tuple2_eq_pair] at hp
    exact hpair i i' o hp

/-- Witness for C7: with literal-match sub-parsers (which are suffix
monotone), `pair(tag("ab"), tag("cd"))` on `"abcd"` leaves the empty
cursor, a suffix of the input, and the four consumed characters split as
two plus two across the intermediate cursor. -/
theorem C7_cursor_monotone_witness :
    ([] : List Char) <:+ "abcd".data ∧ ∃ j,
      (∃ p1, tagL "ab".data "abcd".data = Except.ok (j, p1)) ∧
      (∃ p2, tagL "cd".data j = Except.ok (([] : List Char), p2)) ∧
      "abcd".data.length - ([] : List Char).length =
        ("abcd".data.length - j.length) + (j.length - ([] : List Char).length) :=
  (C7_cursor_monotone (tagL "ab".data) (tagL "cd".data) (tagL "xx".data)
    (tagL_suffixMono "ab".data) (tagL_suffixMono "cd".data)
    (tagL_suffixMono "xx".data)).1 "abcd".data [] ("ab".data, "cd".data)
    (by decide)

/-- Claim C8: with literal-match leaf parsers,
`pair(match("abc"), match("efg"))` on `"abcefg"` succeeds with output
`("abc", "efg")` and remaining cursor `""`; on `"123"` it fails with the
first sub-parser's own tag-mismatch whose error carries the unchanged
input `"123"`; and `delimited(match("("), match("x"), match(")"))` on
`"(x)rest"` succeeds with output `"x"` and remaining cursor `"rest"`. -/
theorem C8_concrete_scenarios :
    pair (tagL "abc".data) (tagL "efg".data) "abcefg".data =
      Except.ok (([] : List Char), ("abc".data, "efg".data)) ∧
    pair (tagL "abc".data) (tagL "efg".data) "123".data =
      Except.error (PErr.Error ("123".data, ErrorKind.Tag)) ∧
    tagL "abc".data "123".data =
      Except.error (PErr.Error ("123".data, ErrorKind.Tag)) ∧
    delimited (tagL "(".data) (tagL "x".data) (tagL ")".data) "(x)rest".data =
      Except.ok ("rest".data, "x".data) :=
  ⟨by decide, by decide, by decide, by decide⟩

/-- Claim C9: the tuple operation is defined for every arity from 2 up to
the generated ceiling of 21 and for no other arity — the one `tuple_trait`
invocation expands to exactly the trait implementations of arities 2..21,
so arities 0, 1, and above 21 have no implementation and are rejected when
the parser is constructed, not at parse time. At parse time no
"unsupported arity" error can arise: every error a constructed tuple parser
returns is the verbatim error of one of its sub-parsers (arity is fixed by
the implementation that was selected at construction time). -/
theorem C9_tuple_arity :
    (∀ n, n ∈ tuple_trait_arities ↔ 2 ≤ n ∧ n ≤ 21) ∧
    (∀ (I O1 O2 E : Type) (f : ParserFn I O1 E) (g : ParserFn I O2 E)
      (i : I) (e : PErr E), tuple (f, g) i = Except.error e →
        f i = Except.error e ∨
          ∃ j p1, f i = Except.ok (j, p1) ∧ g j = Except.error e) := by
  constructor
  · intro n
    rw [show tuple_trait_arities =
      [2, 3, 4, 5, 6, 7, 8, 9, 10, 11, 12, 13, 14, 15, 16, 17, 18, 19, 20, 21]
      from rfl]
    simp only [List.mem_cons, List.not_mem_nil, or_false]
    omega
  · intro I O1 O2 E f g i e hp
    rw [tuple2_eq_pair] at hp
    exact pair_err_inv hp

/-- Witness for C9: arities 2 and 21 are generated, arities 1 and 22 are
not. -/
theorem C9_tuple_arity_witness :
    2 ∈ tuple_trait_arities ∧ 21 ∈ tuple_trait_arities ∧
    ¬ 1 ∈ tuple_trait_arities ∧ ¬ 22 ∈ tuple_trait_arities :=
  ⟨(C9_tuple_arity.1 2).mpr (by decide), (C9_tuple_arity.1 21).mpr (by decide),
    fun hmem => absurd ((C9_tuple_arity.1 1).mp hmem) (by decide),
    fun hmem => absurd ((C9_tuple_arity.1 22).mp hmem) (by decide)⟩

/-- Claim C10: for every input cursor and all applicable sub-parsers, each
uncurried helper equals applying its curried counterpart to the cursor:
`pairc`, `precededc`, `terminatedc`, `separated_pairc` and `delimitedc`
are definitionally the curried combinators applied to the input. -/
theorem C10_uncurried_variants {I O1 O2 O3 E : Type} (i : I)
    (f : ParserFn I O1 E) (s : ParserFn I O2 E) (g : ParserFn I O3 E)
    (g2 : ParserFn I O2 E) :
    pairc i f g2 = pair f g2 i ∧
    precededc i f g2 = preceded f g2 i ∧
    terminatedc i f g2 = terminated f g2 i ∧
    separated_pairc i f s g = separated_pair f s g i ∧
    delimitedc i f s g = delimited f s g i :=
  ⟨rfl, rfl, rfl, rfl, rfl⟩

end Nom
